import Mathlib

/-!
Verification development for the PAFER trading system
(`core/strategy/indicators.py`, `core/strategy/paferr_strategy.py`,
`core/exchange/huobi_executor.py`, `utils/optimization.py`,
`config/settings.py`).

Modelling conventions:
* Python float arithmetic is modelled as exact rational arithmetic.  To keep
  every definition kernel-computable we use an explicit fraction type `Q`
  (numerator/denominator over `Int`, not normalised); `Q.toRat` gives its
  value in `ℚ`.  All fractions built by the embedding keep a positive
  denominator.
* pandas timestamps are modelled as `Int` nanoseconds; `timedelta(minutes=15)`
  becomes `15 * nsPerMin`.
* A pandas column is a `List Q`, or `List (Option Q)` when entries can be NaN
  (rolling windows, `shift`, `diff`).  Comparisons against NaN are `false`,
  exactly as in pandas.
* Exceptions (`ZeroDivisionError` in the pnl formula, a raising
  `db.save_virtual_trade`) are modelled explicitly: the pnl computation
  returns `Option Q`, and the executor takes a `dbOk : Bool` flag telling
  whether the persistence collaborator raises.
-/

set_option maxRecDepth 1000000

namespace PAFER

/-- Exact fraction with explicit numerator and denominator (not normalised).
Every constructor used by the embedding keeps `0 < d`. -/
structure Q where
  n : Int
  d : Int
deriving DecidableEq

namespace Q

/-- Embed an integer. -/
def ofInt (i : Int) : Q := ⟨i, 1⟩

def add (a b : Q) : Q := ⟨a.n * b.d + b.n * a.d, a.d * b.d⟩

def sub (a b : Q) : Q := ⟨a.n * b.d - b.n * a.d, a.d * b.d⟩

def mul (a b : Q) : Q := ⟨a.n * b.n, a.d * b.d⟩

def neg (a : Q) : Q := ⟨-a.n, a.d⟩

/-- Division; keeps the denominator positive.  Division by an exact zero
yields the junk value `0` (call sites that can hit a Python
`ZeroDivisionError` guard for zero explicitly before dividing). -/
def div (a b : Q) : Q :=
  if b.n = 0 then ⟨0, 1⟩
  else if 0 < b.n then ⟨a.n * b.d, a.d * b.n⟩
  else ⟨-(a.n * b.d), a.d * (-b.n)⟩

/-- Absolute value. -/
def qabs (a : Q) : Q := ⟨|a.n|, a.d⟩

/-- Strict order, as a decidable Bool (valid when both denominators are
positive, which the embedding maintains). -/
def ltb (a b : Q) : Bool := a.n * b.d < b.n * a.d

def leb (a b : Q) : Bool := a.n * b.d ≤ b.n * a.d

/-- Value equality (cross multiplication). -/
def eqb (a b : Q) : Bool := a.n * b.d = b.n * a.d

/-- Value semantics in `ℚ`. -/
def toRat (a : Q) : ℚ := (a.n : ℚ) / (a.d : ℚ)

end Q

/-- NaN-aware strict comparison: any comparison against NaN is `false`,
as in pandas. -/
def oLt : Option Q → Option Q → Bool
  | some a, some b => a.ltb b
  | _, _ => false

/-- NaN-aware `≥` comparison (used by `ma45_stable`). -/
def oGe : Option Q → Option Q → Bool
  | some a, some b => b.leb a
  | _, _ => false

/-- Epsilon `1e-8`, the guard used by the indicator formulas. -/
def eps8 : Q := ⟨1, 100000000⟩

/-- Lift a NaN-free column to a NaN-aware one. -/
def someList (l : List Q) : List (Option Q) := l.map some

/-- pandas `Series.shift(1)`: the first entry becomes NaN. -/
def shift1 (l : List (Option Q)) : List (Option Q) := none :: l.dropLast

/-- Elementwise binary operation on NaN-aware columns (NaN propagates). -/
def zipO (f : Q → Q → Q) : List (Option Q) → List (Option Q) → List (Option Q) :=
  List.zipWith fun a b =>
    match a, b with
    | some x, some y => some (f x y)
    | _, _ => none

/-- pandas `Series.diff()`: `x[i] - x[i-1]` with NaN at index 0. -/
def diffO (l : List (Option Q)) : List (Option Q) := zipO Q.sub l (shift1 l)

/-- pandas `Series.fillna(0)`. -/
def fillna0 (l : List (Option Q)) : List Q := l.map fun o => o.getD ⟨0, 1⟩

/-- Minimum of a window (junk `0` on an empty window, never exercised). -/
def listMin : List Q → Q
  | [] => ⟨0, 1⟩
  | x :: xs => xs.foldl (fun a b => if b.ltb a then b else a) x

/-- Maximum of a window. -/
def listMax : List Q → Q
  | [] => ⟨0, 1⟩
  | x :: xs => xs.foldl (fun a b => if a.ltb b then b else a) x

def listSum (l : List Q) : Q := l.foldl Q.add ⟨0, 1⟩

/-- Mean of a window. -/
def listMean (l : List Q) : Q := (listSum l).div ⟨(l.length : Int), 1⟩

/-- pandas `Series.rolling(n)` with an aggregation `f`: NaN until the window
is fully populated (`min_periods` defaults to the window size). -/
def rollingOp (f : List Q → Q) (n : ℕ) (l : List Q) : List (Option Q) :=
  (List.range l.length).map fun i =>
    if i + 1 < n then none else some (f (((l.take (i + 1))).drop (i + 1 - n)))

/-- One step of `ewm(span, adjust=False).mean()`:
`y = (1 - alpha) * prev + alpha * x`. -/
def ewmStep (alpha prev x : Q) : Q :=
  ((Q.sub ⟨1, 1⟩ alpha).mul prev).add (alpha.mul x)

def ewmGo (alpha prev : Q) : List Q → List Q
  | [] => []
  | x :: xs => let y := ewmStep alpha prev x; y :: ewmGo alpha y xs

/-- pandas `ewm(span, adjust=False).mean()` on a NaN-free column: the first
value seeds the average. -/
def ewmMean (alpha : Q) : List Q → List Q
  | [] => []
  | x :: xs => x :: ewmGo alpha x xs

def ewmGoO (alpha prev : Q) : List (Option Q) → List (Option Q)
  | [] => []
  | none :: xs => none :: ewmGoO alpha prev xs
  | some x :: xs => let y := ewmStep alpha prev x; some y :: ewmGoO alpha y xs

/-- pandas `ewm(span, adjust=False).mean()` on a column with leading NaNs
(the KDJ RSV): output stays NaN until the first valid value, which seeds the
average.  Interior NaNs never occur in this pipeline. -/
def ewmMeanO (alpha : Q) : List (Option Q) → List (Option Q)
  | [] => []
  | none :: xs => none :: ewmMeanO alpha xs
  | some x :: xs => some x :: ewmGoO alpha x xs

/-- Smoothing factor `alpha = 2 / (span + 1)` for `ewm(span=..., adjust=False)`. -/
def spanAlpha (span : Q) : Q := (Q.div ⟨2, 1⟩ (span.add ⟨1, 1⟩))

/-- Elementwise `and` of two boolean columns. -/
def andS : List Bool → List Bool → List Bool := List.zipWith and

/-- Elementwise `or` of two boolean columns. -/
def orS : List Bool → List Bool → List Bool := List.zipWith or

/-- Elementwise `series > 0`. -/
def gtZeroS (l : List Q) : List Bool := l.map fun x => (⟨0, 1⟩ : Q).ltb x

/-- Elementwise `series < 0`. -/
def ltZeroS (l : List Q) : List Bool := l.map fun x => x.ltb ⟨0, 1⟩

/-- Elementwise `a < b` of two NaN-free columns. -/
def ltS : List Q → List Q → List Bool := List.zipWith fun a b => a.ltb b

/-- Elementwise NaN-aware `a < b`. -/
def ltSO : List (Option Q) → List (Option Q) → List Bool := List.zipWith oLt

/-! ### Data model -/

/-- Nanoseconds per minute (pandas timestamps are nanosecond-resolution). -/
def nsPerMin : Int := 60 * 1000000000

/-- One OHLCV bar: `{timestamp, open, high, low, close, volume}`.
`ts` is in nanoseconds. -/
structure Bar where
  ts : Int
  op : Q
  hi : Q
  lo : Q
  cl : Q
  vol : Q
deriving DecidableEq

/-- A bar frame (`pd.DataFrame` of OHLCV rows). -/
abbrev Df := List Bar

/-- Configuration `StrategyConfig` from `config/settings.py`.  MACD/KDJ smoothing spans are
passed to `ewm(span=...)` and kept as fractions; rolling-window sizes are
natural numbers. -/
structure StrategyConfig where
  macd_fast : Q
  macd_slow : Q
  macd_sig : Q
  kdj_period : ℕ
  kdj_smooth_k : Q
  kdj_smooth_d : Q
  ma_short : ℕ
  ma_mid : ℕ
  ma_long : ℕ
  max_klines_for_resonance : ℕ
  momentum_threshold_pct : Q

/-- The default `StrategyConfig()`:
MACD(3,18,6), KDJ(9,3,3), MA(5,10,45), resonance window 4, momentum 15%. -/
def defaultConfig : StrategyConfig :=
  { macd_fast := ⟨3, 1⟩, macd_slow := ⟨18, 1⟩, macd_sig := ⟨6, 1⟩
    kdj_period := 9, kdj_smooth_k := ⟨3, 1⟩, kdj_smooth_d := ⟨3, 1⟩
    ma_short := 5, ma_mid := 10, ma_long := 45
    max_klines_for_resonance := 4, momentum_threshold_pct := ⟨15, 1⟩ }

/-- Constant `Config.RISK.stop_loss_buffer = 0.003`. -/
def stop_loss_buffer : Q := ⟨3, 1000⟩

/-- Constant `Config.EXCHANGE.fee_rate_taker = 0.0006`. -/
def fee_rate_taker : Q := ⟨6, 10000⟩

/-! ### IndicatorEngine (`core/strategy/indicators.py`) -/

/-- Columns produced by `calculate_macd`.  `hist_change` is computed by the
source (`macd_hist.diff().fillna(0)`) but never stored nor used, so it is
omitted here. -/
structure MacdCols where
  line : List Q
  sig : List Q
  hist : List Q
  drift : List Int
  momentum : List (Option Q)
deriving DecidableEq

/-- Source `calculate_macd(df, fast, slow, signal)`:
`macd_line = EMA(close,fast) - EMA(close,slow)`,
`signal_line = EMA(macd_line, signal)`, `hist = line - signal_line`;
the drift flag is
`(diff > 0) & (diff.shift(1) < diff) & (macd_line < signal_line)`
or-ed with
`(diff < 0) & (diff.shift(1) > diff) & (macd_line > signal_line)`,
cast to int; `momentum% = (|hist| - |hist|.shift(1)) / (|hist|.shift(1) + 1e-8) * 100`. -/
def calculate_macd (close : List Q) (fast slow sigspan : Q) : MacdCols :=
  let ema_fast := ewmMean (spanAlpha fast) close
  let ema_slow := ewmMean (spanAlpha slow) close
  let macd_line := List.zipWith Q.sub ema_fast ema_slow
  let signal_line := ewmMean (spanAlpha sigspan) macd_line
  let macd_hist := List.zipWith Q.sub macd_line signal_line
  let diff := List.zipWith Q.sub macd_line signal_line
  let diffShift := shift1 (someList diff)
  let drift1 :=
    andS (andS (gtZeroS diff) (ltSO diffShift (someList diff))) (ltS macd_line signal_line)
  let drift2 :=
    andS (andS (ltZeroS diff) (ltSO (someList diff) diffShift)) (ltS signal_line macd_line)
  let is_drift := orS drift1 drift2
  let hist_area := macd_hist.map Q.qabs
  let hist_momentum :=
    zipO (fun a s => ((a.sub s).div (s.add eps8)).mul ⟨100, 1⟩)
      (someList hist_area) (shift1 (someList hist_area))
  { line := macd_line, sig := signal_line, hist := macd_hist
    drift := is_drift.map (fun b => if b then (1 : Int) else 0)
    momentum := hist_momentum }

/-- Columns produced by `calculate_kdj`. -/
structure KdjCols where
  k : List (Option Q)
  d : List (Option Q)
  j : List (Option Q)
  k_slope : List Q
deriving DecidableEq

/-- Source `calculate_kdj(df, period, smooth_k, smooth_d)`:
`rsv = (close - rolling_min(low)) / (rolling_max(high) - rolling_min(low) + 1e-8) * 100`,
`k = EMA(rsv, smooth_k)`, `d = EMA(k, smooth_d)`, `j = 3k - 2d`,
`k_slope = k.diff().fillna(0) * 100`. -/
def calculate_kdj (low high close : List Q) (period : ℕ) (smooth_k smooth_d : Q) :
    KdjCols :=
  let ll := rollingOp listMin period low
  let hh := rollingOp listMax period high
  let rsv :=
    zipO (fun num den => (num.div den).mul ⟨100, 1⟩)
      (zipO Q.sub (someList close) ll)
      (zipO (fun h l => (h.sub l).add eps8) hh ll)
  let k := ewmMeanO (spanAlpha smooth_k) rsv
  let d := ewmMeanO (spanAlpha smooth_d) k
  let j := zipO (fun a b => ((⟨3, 1⟩ : Q).mul a).sub ((⟨2, 1⟩ : Q).mul b)) k d
  let k_slope := (fillna0 (diffO k)).map (fun x => x.mul ⟨100, 1⟩)
  { k := k, d := d, j := j, k_slope := k_slope }

/-- Columns produced by `calculate_ma`. -/
structure MaCols where
  ma_s : List (Option Q)
  ma_m : List (Option Q)
  ma_l : List (Option Q)
  ma_stable : List Int
deriving DecidableEq

/-- Source `calculate_ma(df, ma5, ma10, ma45)`: simple rolling means and the
`ma45_stable` flag `(close >= ma45) & (close.shift(1) >= ma45.shift(1))`. -/
def calculate_ma (close : List Q) (s m l : ℕ) : MaCols :=
  let ma_s := rollingOp listMean s close
  let ma_m := rollingOp listMean m close
  let ma_l := rollingOp listMean l close
  let closeO := someList close
  let stable :=
    andS (List.zipWith oGe closeO ma_l)
      (List.zipWith oGe (shift1 closeO) (shift1 ma_l))
  { ma_s := ma_s, ma_m := ma_m, ma_l := ma_l
    ma_stable := stable.map (fun b => if b then (1 : Int) else 0) }

/-- An indicator-enriched frame: the bars plus every derived column
(`add_paferr_features`). -/
structure Feat where
  bars : Df
  macd : MacdCols
  kdj : KdjCols
  ma : MaCols
deriving DecidableEq

/-- Source `add_paferr_features(df, config)`. -/
def add_paferr_features (df : Df) (cfg : StrategyConfig) : Feat :=
  { bars := df
    macd := calculate_macd (df.map (·.cl)) cfg.macd_fast cfg.macd_slow cfg.macd_sig
    kdj := calculate_kdj (df.map (·.lo)) (df.map (·.hi)) (df.map (·.cl))
      cfg.kdj_period cfg.kdj_smooth_k cfg.kdj_smooth_d
    ma := calculate_ma (df.map (·.cl)) cfg.ma_short cfg.ma_mid cfg.ma_long }

/-! ### ResonanceSignalEngine (`core/strategy/paferr_strategy.py`) -/

/-- Last entry of a NaN-aware column (`iloc[-1]`); NaN when empty. -/
def lastO (l : List (Option Q)) : Option Q := l.getLastD none

/-- Trailing window `df.tail(n)`. -/
def tailN (n : ℕ) (l : List α) : List α := l.drop (l.length - n)

/-- A junk bar used only as the default of total `getLastD` accesses that the
source performs on frames already known to be non-empty. -/
def defBar : Bar := ⟨0, ⟨0, 1⟩, ⟨0, 1⟩, ⟨0, 1⟩, ⟨0, 1⟩, ⟨0, 1⟩⟩

/-- Last bar time `df['timestamp'].iloc[-1]` (nanoseconds). -/
def dfNow (df : Df) : Int := (df.map (·.ts)).getLastD 0

/-- Source `df.resample(rule, on='timestamp').agg({open: first, high: max, low: min,
close: last, volume: sum}).dropna()`, for bars with ascending timestamps:
consecutive bars falling in the same `mins`-minute wall-clock bucket are
aggregated; empty buckets are dropped. -/
def resampleAgg (mins : Int) (df : Df) : Df :=
  (df.splitBy fun a b => a.ts.fdiv (mins * nsPerMin) = b.ts.fdiv (mins * nsPerMin)).map
    fun g =>
      match g with
      | [] => defBar
      | b :: _ =>
        { ts := (b.ts.fdiv (mins * nsPerMin)) * (mins * nsPerMin)
          op := b.op
          hi := listMax (g.map (·.hi))
          lo := listMin (g.map (·.lo))
          cl := (g.map (·.cl)).getLastD ⟨0, 1⟩
          vol := listSum (g.map (·.vol)) }

/-- The inner `get_trend_status(_df)` of `_check_resonance`: `False` on an
empty frame (the `pd.DataFrame()` placeholder, which also lacks the `ma45`
column) or a frame with fewer than 2 rows; otherwise
`(close.iloc[-1] > ma45.iloc[-1]) and (macd_hist.iloc[-1] > 0)`. -/
def get_trend_status : Option Feat → Bool
  | none => false
  | some f =>
    if f.bars.length < 2 then false
    else
      oLt (lastO f.ma.ma_l) (some ((f.bars.map (·.cl)).getLastD ⟨0, 1⟩)) &&
        (⟨0, 1⟩ : Q).ltb (f.macd.hist.getLastD ⟨0, 1⟩)

/-- The four per-timeframe trend flags returned by `_check_resonance`. -/
structure Resonance where
  m15 : Bool
  m30 : Bool
  h1 : Bool
  h4 : Bool
deriving DecidableEq

/-- Resample to `mins` minutes and recompute the indicator frame only when
the aggregate has at least 50 bars, else the `pd.DataFrame()` placeholder
(`none`). -/
def aggFeat (mins : Int) (df : Df) (cfg : StrategyConfig) : Option Feat :=
  let a := resampleAgg mins df
  if 50 ≤ a.length then some (add_paferr_features a cfg) else none

/-- Source `_check_resonance(df)`: trend status of the native frame and of the
30-minute, 1-hour and 4-hour aggregates. -/
def check_resonance (df : Df) (cfg : StrategyConfig) : Resonance :=
  { m15 := get_trend_status (some (add_paferr_features df cfg))
    m30 := get_trend_status (aggFeat 30 df cfg)
    h1 := get_trend_status (aggFeat 60 df cfg)
    h4 := get_trend_status (aggFeat 240 df cfg) }

/-- Resonance count `sum(resonance.values())`. -/
def resTotal (r : Resonance) : ℕ :=
  (cond r.m15 1 0) + (cond r.m30 1 0) + (cond r.h1 1 0) + (cond r.h4 1 0)

/-- Source `_check_momentum(df)`:
`abs(macd_momentum_pct.iloc[-1]) > momentum_threshold_pct and
abs(kdj_k_slope.iloc[-1]) > 25`. -/
def check_momentum (f : Feat) (cfg : StrategyConfig) : Bool :=
  oLt (some cfg.momentum_threshold_pct) ((lastO f.macd.momentum).map Q.qabs) &&
    (⟨25, 1⟩ : Q).ltb (Q.qabs (f.kdj.k_slope.getLastD ⟨0, 1⟩))

/-- Source `_check_timeliness(df)`: over the trailing `max_klines_for_resonance`
rows, `(close > ma45).sum() >= max_klines_for_resonance`. -/
def check_timeliness (f : Feat) (cfg : StrategyConfig) : Bool :=
  let recent := tailN cfg.max_klines_for_resonance
    (List.zip (someList (f.bars.map (·.cl))) f.ma.ma_l)
  cfg.max_klines_for_resonance ≤ recent.countP fun p => oLt p.2 p.1

/-- Source `_check_drift_accumulation(df, window=5)`: sum of the trailing 5 drift
flags. -/
def drift_accumulation (f : Feat) : Int :=
  (tailN 5 f.macd.drift).foldl (· + ·) 0

inductive Action
  | buy
  | sell
  | hold
deriving DecidableEq

/-- A non-hold trade intent as built by `generate_signal`.  `stop_loss` is
NaN-aware because it multiplies `ma45.iloc[-1]`, which is NaN while the
long-MA window is unpopulated. -/
structure Intent where
  action : Action
  reason : String
  confidence : Q
  stop_loss : Option Q
  take_profit : Q
  leverage : Int
deriving DecidableEq

/-- Result of one `generate_signal` call: Python `None` (no signal), the
`{'action': 'hold', ...}` dict, or a full buy/sell intent dict. -/
inductive SigResult
  | noSignal
  | holdSig (reason : String)
  | trade (it : Intent)
deriving DecidableEq

/-- The cooldown test `self.last_signal_time and
(now - self.last_signal_time) < self.signal_cooldown`
(`signal_cooldown = timedelta(minutes=15)`). -/
def cooldownActive : Option Int → Int → Bool
  | none, _ => false
  | some t, now => now - t < 15 * nsPerMin

/-- Source `generate_signal(df)` as a state transition: the engine state is
`last_signal_time` (an optional bar timestamp); the call returns the emitted
result and the updated state. -/
def generate_signal (cfg : StrategyConfig) (lastSig : Option Int) (df : Df) :
    SigResult × Option Int :=
  if df.length < 50 then (.noSignal, lastSig)
  else
    let f := add_paferr_features df cfg
    let now := dfNow df
    if cooldownActive lastSig now then (.noSignal, lastSig)
    else
      let r := check_resonance df cfg
      let total := resTotal r
      let is_bullish := decide (3 ≤ total)
      let is_bearish := total == 0 && r.h4 == false
      let has_momentum := check_momentum f cfg
      let is_timely := check_timeliness f cfg
      let drift_count := drift_accumulation f
      if is_bullish && has_momentum && is_timely then
        let latest := f.bars.getLastD defBar
        let sl := (lastO f.ma.ma_l).map fun m => m.mul ((⟨1, 1⟩ : Q).sub stop_loss_buffer)
        let tp := latest.hi.add ((⟨3, 2⟩ : Q).mul (latest.hi.sub latest.lo))
        let leverage := min 50 (max 20 (20 + drift_count * 5))
        (.trade
          { action := .buy
            reason := "PAFER Bullish Resonance(" ++ toString total ++ "/4)+Momentum+Timely"
            confidence := (⟨7, 10⟩ : Q).add ((⟨1, 10⟩ : Q).mul (Q.ofInt drift_count))
            stop_loss := sl, take_profit := tp, leverage := leverage },
          some now)
      else if is_bearish && has_momentum && is_timely then
        let latest := f.bars.getLastD defBar
        let sl := (lastO f.ma.ma_l).map fun m => m.mul ((⟨1, 1⟩ : Q).add stop_loss_buffer)
        let tp := latest.lo.sub ((⟨3, 2⟩ : Q).mul (latest.hi.sub latest.lo))
        let leverage := min 50 (max 20 (20 + drift_count * 5))
        (.trade
          { action := .sell
            reason := "PAFER Bearish Resonance(0/4)+Momentum+Timely"
            confidence := (⟨65, 100⟩ : Q).add ((⟨1, 10⟩ : Q).mul (Q.ofInt drift_count))
            stop_loss := sl, take_profit := tp, leverage := leverage },
          some now)
      else (.holdSig "No valid PAFER signal", lastSig)

/-- A sequence of `generate_signal` calls against one engine instance
(threading `last_signal_time` through). -/
def runSignals (cfg : StrategyConfig) : Option Int → List Df → List SigResult
  | _, [] => []
  | s, d :: ds =>
    let r := generate_signal cfg s d
    r.1 :: runSignals cfg r.2 ds

/-! ### VirtualTradeSimulator (`core/exchange/huobi_executor.py`) -/

/-- Round-half-to-even of a fraction to an integer (Python `round` on the
exact value; assumes a positive denominator). -/
def roundHE (x : Q) : Int :=
  let f := x.n.fdiv x.d
  let r2 := 2 * (x.n - f * x.d)
  if r2 < x.d then f
  else if x.d < r2 then f + 1
  else if f % 2 = 0 then f else f + 1

/-- Python `round(x, k)` on the exact value. -/
def pyRound (x : Q) (k : ℕ) : Q :=
  ⟨roundHE (x.mul ⟨(10 : Int) ^ k, 1⟩), (10 : Int) ^ k⟩

/-- The signal dict fields read by `execute_virtual_trade`. -/
structure Signal where
  action : Action
  stop_loss : Q
  take_profit : Q
  reason : String
deriving DecidableEq

/-- A persisted virtual trade record (the dict built by
`execute_virtual_trade`; `open_time`/`close_time` carry the fill timestamp,
in integer seconds). -/
structure TradeRec where
  trade_id : String
  side : Action
  open_time : Int
  open_price : Q
  close_time : Int
  close_price : Q
  pnl : Q
  fee : Q
  net_pnl : Q
  balance_after : Q
  reason : String
deriving DecidableEq

/-- Mutable simulator state: `virtual_balance` and the in-memory
`virtual_trades` buffer. -/
structure SimState where
  balance : Q
  trades : List TradeRec
deriving DecidableEq

/-- Source `reset_virtual_account()`: balance 100, empty buffer. -/
def reset_virtual_account : SimState := ⟨⟨100, 1⟩, []⟩

/-- Result of one `execute_virtual_trade` call: the `{'status': 'ignored'}`
dict for hold, the `{'status': 'error', ...}` dict when an exception was
caught, or the trade record on success. -/
inductive ExecResult
  | ignored
  | errorRes
  | filled (t : TradeRec)
deriving DecidableEq

/-- The simulated pnl branch of `execute_virtual_trade`.  `none` models the
`ZeroDivisionError` raised when a triggered branch divides by
`exec_price = 0` (caught by the surrounding `except`). -/
def computePnl (action : Action) (sl tp size fee exec_price : Q) : Option Q :=
  if action = .buy then
    if exec_price.leb sl then
      if exec_price.n = 0 then none
      else some ((((size.neg).mul (exec_price.sub sl)).div exec_price).sub fee)
    else if tp.leb exec_price then
      if exec_price.n = 0 then none
      else some (((size.mul (exec_price.sub tp)).div exec_price).sub fee)
    else some ⟨0, 1⟩
  else
    if sl.leb exec_price then
      if exec_price.n = 0 then none
      else some ((((size.neg).mul (exec_price.sub sl)).div exec_price).sub fee)
    else if exec_price.leb tp then
      if exec_price.n = 0 then none
      else some (((size.mul (tp.sub exec_price)).div exec_price).sub fee)
    else some ⟨0, 1⟩

/-- Position size `min(50.0, balance * 0.8)` (Python `min` keeps the first argument unless
the second is smaller). -/
def positionSize (balance : Q) : Q :=
  let b8 := balance.mul ⟨8, 10⟩
  if b8.ltb ⟨50, 1⟩ then b8 else ⟨50, 1⟩

/-- Execution price `price * (1 + slippage)` for a buy, `price * (1 - slippage)` for a sell. -/
def execPrice (sig : Signal) (price slippage : Q) : Q :=
  if sig.action = .buy then price.mul ((⟨1, 1⟩ : Q).add slippage)
  else price.mul ((⟨1, 1⟩ : Q).sub slippage)

/-- The trade dict built by `execute_virtual_trade` (prices rounded to 4
decimal places, money fields to 6, `balance_after` to 4). -/
def buildTrade (sig : Signal) (ts : Int) (exec_price pnl fee bal_after : Q) :
    TradeRec :=
  { trade_id := "VIRT_" ++ toString ts
    side := sig.action
    open_time := ts, open_price := pyRound exec_price 4
    close_time := ts, close_price := pyRound exec_price 4
    pnl := pyRound pnl 6
    fee := pyRound fee 6
    net_pnl := pyRound (pnl.sub fee) 6
    balance_after := pyRound bal_after 4
    reason := sig.reason }

/-- Source `execute_virtual_trade(signal, price, timestamp)`.

Inputs beyond the source signature: `dbOk` tells whether the persistence
collaborator `db.save_virtual_trade` succeeds (it raises otherwise, and the
surrounding `except` turns that into an error result), and `slippage` is the
random value drawn by `calculate_slippage(price, 'market')`, passed
explicitly.  `ts` is the fill time in integer seconds
(`int(timestamp.timestamp())`). -/
def execute_virtual_trade (dbOk : Bool) (st : SimState) (sig : Signal)
    (price slippage : Q) (ts : Int) : ExecResult × SimState :=
  if sig.action = .hold then (.ignored, st)
  else
    let size_usd := positionSize st.balance
    let fee := size_usd.mul fee_rate_taker
    let exec_price := execPrice sig price slippage
    match computePnl sig.action sig.stop_loss sig.take_profit size_usd fee exec_price with
    | none => (.errorRes, st)
    | some pnl =>
      let new_balance := st.balance.add pnl
      let is_bankrupt := new_balance.ltb ⟨10, 1⟩
      let st1 := if is_bankrupt then reset_virtual_account else st
      let new_balance2 := if is_bankrupt then (⟨100, 1⟩ : Q) else new_balance
      let trade := buildTrade sig ts exec_price pnl fee new_balance2
      if dbOk then (.filled trade, ⟨new_balance2, st1.trades ++ [trade]⟩)
      else (.errorRes, st1)

/-! ### ParameterOptimizer scoring (`utils/optimization.py`) -/

/-- Outcome of `_objective_function` after the replay: either the sentinel
`-1.0`, or the data of the Sharpe/win-rate formula
`0.7 * (mean/(std + 1e-8)) * sqrt(252*4) + 0.3 * win_rate`
(kept symbolic because `std = sqrt(variance)` is irrational; `scoreVal`
interprets it in `ℝ`). -/
inductive ObjRes
  | negOne
  | formula (mean variance win_rate : Q)
deriving DecidableEq

/-- The scoring tail of `_objective_function`, as a function of the
`net_pnl` values of the trades collected by the replay:
fewer than 5 trades → `-1.0`; `returns = pnls / 100`; zero variance (i.e.
`np.std(returns) == 0`) → `-1.0`; otherwise the Sharpe/win-rate formula. -/
def objective_score (pnls : List Q) : ObjRes :=
  if pnls.length < 5 then .negOne
  else
    let returns := pnls.map fun p => p.div ⟨100, 1⟩
    let n : Q := ⟨(returns.length : Int), 1⟩
    let mean := (listSum returns).div n
    let variance := (listSum (returns.map fun r => (r.sub mean).mul (r.sub mean))).div n
    if returns.length = 0 ∨ variance.eqb ⟨0, 1⟩ then .negOne
    else
      .formula mean variance
        ((⟨((pnls.filter fun p => (⟨0, 1⟩ : Q).ltb p).length : Int), 1⟩ : Q).div
          ⟨(pnls.length : Int), 1⟩)

/-- Real value of an objective outcome. -/
noncomputable def scoreVal : ObjRes → ℝ
  | .negOne => -1
  | .formula mean variance win_rate =>
    (7 : ℝ) / 10 *
        ((mean.toRat : ℝ) / (Real.sqrt (variance.toRat : ℝ) + 1 / 100000000)) *
        Real.sqrt (252 * 4) +
      (3 : ℝ) / 10 * (win_rate.toRat : ℝ)

/-! ### Concrete frames and calls used by witnesses and counterexamples -/

/-- A bar with close `c`, high `c + 0.2`, low `c - 0.2`, at minute `tsMin`. -/
def mkBar (tsMin : Int) (c : Q) : Bar :=
  { ts := tsMin * nsPerMin, op := c, hi := c.add ⟨2, 10⟩, lo := c.sub ⟨2, 10⟩
    cl := c, vol := ⟨1, 1⟩ }

/-- A small parameter set inside the optimizer's recognised bounds shape:
MACD(1,9,10), KDJ(2,1,1), MA(1,1,2), resonance window 1, momentum 0.1%. -/
def witCfg : StrategyConfig :=
  { macd_fast := ⟨1, 1⟩, macd_slow := ⟨9, 1⟩, macd_sig := ⟨10, 1⟩
    kdj_period := 2, kdj_smooth_k := ⟨1, 1⟩, kdj_smooth_d := ⟨1, 1⟩
    ma_short := 1, ma_mid := 1, ma_long := 2
    max_klines_for_resonance := 1, momentum_threshold_pct := ⟨1, 10⟩ }

/-- Frame of 50 one-minute bars: flat at 30, three sharp drops, then a small uptick to
15.1.  All four trends are false (the last 15m histogram is negative and the
aggregates have fewer than 50 bars), the momentum and timeliness gates hold,
so `generate_signal` emits a sell. -/
def dfSell : Df :=
  (List.range 50).zipWith (fun i c => mkBar (Int.ofNat i) c)
    ((List.replicate 46 (⟨30, 1⟩ : Q)) ++ [⟨25, 1⟩, ⟨20, 1⟩, ⟨15, 1⟩, ⟨151, 10⟩])

/-- Frame `dfSell` extended by one bar at minute 50: a second call one minute after
the sell emission. -/
def dfSell2 : Df := dfSell ++ [mkBar 50 ⟨15, 1⟩]

/-- The sell intent emitted on `dfSell` under `witCfg`. -/
def sellIntentW : Intent :=
  { action := .sell, reason := "PAFER Bearish Resonance(0/4)+Momentum+Timely"
    confidence := ⟨650, 1000⟩, stop_loss := some ⟨301903, 20000⟩
    take_profit := ⟨28600000, 2000000⟩, leverage := 20 }

/-- Frame of 50 hourly bars rising `10, 10.1, ..., 14.8` with a final jump to `15.4`:
the native, 30-minute and 1-hour trends coincide and are true (each hourly
bar is its own 30-minute/1-hour bucket), the 4-hour aggregate has only 13
bars, so the resonance count is 3 and `generate_signal` emits a buy. -/
def dfBuy : Df :=
  (List.range 50).zipWith (fun i c => mkBar (60 * Int.ofNat i) c)
    (((List.range 49).map fun i => (⟨100 + (Int.ofNat i), 10⟩ : Q)) ++ [⟨154, 10⟩])

/-- The buy intent emitted on `dfBuy` under `witCfg`. -/
def buyIntentW : Intent :=
  { action := .buy, reason := "PAFER Bullish Resonance(3/4)+Momentum+Timely"
    confidence := ⟨70, 100⟩, stop_loss := some ⟨3010940, 200000⟩
    take_profit := ⟨32400000, 2000000⟩, leverage := 20 }

/-- Frame of 9 one-minute bars `10, 10, 10, 10, 10.5, 11, 11.5, 12, 12` under
`MACD(2,6,20)` and `ma_long = 2`: at the last bar the close equals the
long-MA exactly while the MACD histogram is positive. -/
def dfEq : Df :=
  (List.range 9).zipWith (fun i c => mkBar (Int.ofNat i) c)
    [⟨10, 1⟩, ⟨10, 1⟩, ⟨10, 1⟩, ⟨10, 1⟩, ⟨105, 10⟩, ⟨11, 1⟩, ⟨115, 10⟩, ⟨12, 1⟩, ⟨12, 1⟩]

/-- Config for `dfEq`: MACD(2,6,20), MA(1,1,2). -/
def cfgEq : StrategyConfig :=
  { macd_fast := ⟨2, 1⟩, macd_slow := ⟨6, 1⟩, macd_sig := ⟨20, 1⟩
    kdj_period := 2, kdj_smooth_k := ⟨1, 1⟩, kdj_smooth_d := ⟨1, 1⟩
    ma_short := 1, ma_mid := 1, ma_long := 2
    max_klines_for_resonance := 1, momentum_threshold_pct := ⟨1, 10⟩ }

/-- Declining closes `10, 10, 9, 7`: under MACD(1,9,10) the line/signal
distance is negative and widening at the last bar (the spec's dead-cross
drift situation). -/
def c4closes : List Q := [⟨10, 1⟩, ⟨10, 1⟩, ⟨9, 1⟩, ⟨7, 1⟩]

/-- Five identical net-pnl values, as produced by a replay of five
no-trigger fills at full balance (each costs exactly the fee `-0.03`). -/
def fiveEqualPnls : List Q := List.replicate 5 (⟨-3, 100⟩ : Q)

/-- A sell signal whose stop (1.0) is far below the market: a fill at
price 100 is a deep stop-loss hit. -/
def sellSigW : Signal := ⟨.sell, ⟨1, 1⟩, ⟨0, 1⟩, "stop"⟩

/-- A buy signal with a stop at 150 and a target at 1000: a fill at price 100
lies below the stop, so the stop branch triggers. -/
def buySigStop : Signal := ⟨.buy, ⟨150, 1⟩, ⟨1000, 1⟩, "stop"⟩

/-- A buy signal with stop 1 and target 1000: a fill at price 100 triggers
neither branch, so the simulated pnl is 0. -/
def buySigMid : Signal := ⟨.buy, ⟨1, 1⟩, ⟨1000, 1⟩, "mid"⟩

/-- The record persisted by `execute_virtual_trade` for a stop-hit buy fill
from balance 10.33 at price 100 (slippage 0). -/
def c3rec : TradeRec :=
  match (execute_virtual_trade true ⟨⟨1033, 100⟩, []⟩ buySigStop ⟨100, 1⟩ ⟨0, 1⟩ 0).1 with
  | .filled t => t
  | _ => buildTrade buySigStop 0 ⟨0, 1⟩ ⟨0, 1⟩ ⟨0, 1⟩ ⟨0, 1⟩

/-! ### Bridge lemmas: `Q` operations versus their `ℚ` semantics -/

theorem Q.toRat_add (a b : Q) (ha : 0 < a.d) (hb : 0 < b.d) :
    (a.add b).toRat = a.toRat + b.toRat := by
  have ha2 : (a.d : ℚ) ≠ 0 := Int.cast_ne_zero.mpr ha.ne'
  have hb2 : (b.d : ℚ) ≠ 0 := Int.cast_ne_zero.mpr hb.ne'
  simp only [Q.add, Q.toRat]
  push_cast
  field_simp
  try ring

theorem Q.toRat_sub (a b : Q) (ha : 0 < a.d) (hb : 0 < b.d) :
    (a.sub b).toRat = a.toRat - b.toRat := by
  have ha2 : (a.d : ℚ) ≠ 0 := Int.cast_ne_zero.mpr ha.ne'
  have hb2 : (b.d : ℚ) ≠ 0 := Int.cast_ne_zero.mpr hb.ne'
  simp only [Q.sub, Q.toRat]
  push_cast
  field_simp
  try ring

theorem Q.toRat_mul (a b : Q) : (a.mul b).toRat = a.toRat * b.toRat := by
  simp only [Q.mul, Q.toRat]
  push_cast
  rw [div_mul_div_comm]

theorem Q.ltb_iff (a b : Q) (ha : 0 < a.d) (hb : 0 < b.d) :
    a.ltb b = true ↔ a.toRat < b.toRat := by
  have ha2 : (0 : ℚ) < (a.d : ℚ) := by exact_mod_cast ha
  have hb2 : (0 : ℚ) < (b.d : ℚ) := by exact_mod_cast hb
  simp only [Q.ltb, Q.toRat, decide_eq_true_eq]
  rw [div_lt_div_iff ha2 hb2]
  constructor <;> intro h <;> exact_mod_cast h

theorem Q.leb_iff (a b : Q) (ha : 0 < a.d) (hb : 0 < b.d) :
    a.leb b = true ↔ a.toRat ≤ b.toRat := by
  have ha2 : (0 : ℚ) < (a.d : ℚ) := by exact_mod_cast ha
  have hb2 : (0 : ℚ) < (b.d : ℚ) := by exact_mod_cast hb
  simp only [Q.leb, Q.toRat, decide_eq_true_eq]
  rw [div_le_div_iff ha2 hb2]
  constructor <;> intro h <;> exact_mod_cast h

theorem Q.eqb_iff (a b : Q) (ha : 0 < a.d) (hb : 0 < b.d) :
    a.eqb b = true ↔ a.toRat = b.toRat := by
  have ha2 : (a.d : ℚ) ≠ 0 := Int.cast_ne_zero.mpr ha.ne'
  have hb2 : (b.d : ℚ) ≠ 0 := Int.cast_ne_zero.mpr hb.ne'
  simp only [Q.eqb, Q.toRat, decide_eq_true_eq]
  rw [div_eq_div_iff ha2 hb2]
  constructor <;> intro h <;> exact_mod_cast h

/-! ### List helper lemmas -/

theorem getLastD_irrel {α : Type _} (l : List α) (d e : α) (h : l ≠ []) :
    l.getLastD d = l.getLastD e := by
  cases l with
  | nil => exact absurd rfl h
  | cons a t => rw [List.getLastD_cons, List.getLastD_cons]

theorem getLastD_map {α β : Type _} (f : α → β) (l : List α) (d : α) :
    (l.map f).getLastD (f d) = f (l.getLastD d) := by
  induction l generalizing d with
  | nil => rfl
  | cons a t ih =>
    rw [List.map_cons, List.getLastD_cons, List.getLastD_cons]
    exact ih a

theorem getLastD_mem {α : Type _} (l : List α) (d : α) (h : l ≠ []) :
    l.getLastD d ∈ l := by
  induction l generalizing d with
  | nil => exact absurd rfl h
  | cons a t ih =>
    rw [List.getLastD_cons]
    cases t with
    | nil => simp
    | cons b t2 => exact List.mem_cons_of_mem _ (ih a (by simp))

theorem getLastD_drop {α : Type _} (l : List α) (k : ℕ) (d : α) (h : k < l.length) :
    (l.drop k).getLastD d = l.getLastD d := by
  induction l generalizing k d with
  | nil => simp at h
  | cons a t ih =>
    cases k with
    | zero => rfl
    | succ k2 =>
      have hk : k2 < t.length := by simpa using h
      have hne : t ≠ [] := List.ne_nil_of_length_pos (by omega)
      rw [List.drop_succ_cons, ih k2 d hk, List.getLastD_cons, getLastD_irrel t d a hne]

theorem getLastD_zip {α β : Type _} (a : List α) :
    ∀ (b : List β) (da : α) (db : β), a.length = b.length → a ≠ [] →
      (List.zip a b).getLastD (da, db) = (a.getLastD da, b.getLastD db) := by
  induction a with
  | nil => intro b da db _ hne; exact absurd rfl hne
  | cons x xs ih =>
    intro b da db hlen _
    cases b with
    | nil => simp at hlen
    | cons y ys =>
      rw [List.zip_cons_cons, List.getLastD_cons, List.getLastD_cons, List.getLastD_cons]
      cases xs with
      | nil =>
        cases ys with
        | nil => rfl
        | cons z zs => simp at hlen
      | cons x2 xs2 =>
        exact ih ys x y (by simpa using hlen) (by simp)

theorem lastO_someList (l : List Q) (d : Q) (h : l ≠ []) :
    lastO (someList l) = some (l.getLastD d) := by
  cases l with
  | nil => exact absurd rfl h
  | cons a t =>
    show (List.map some (a :: t)).getLastD none = some ((a :: t).getLastD d)
    rw [List.map_cons, List.getLastD_cons, List.getLastD_cons, getLastD_map some t a]

theorem tailN_length {α : Type _} (n : ℕ) (l : List α) :
    (tailN n l).length = min n l.length := by
  simp only [tailN, List.length_drop]
  omega

theorem tailN_getLastD {α : Type _} (n : ℕ) (l : List α) (d : α)
    (hn : 1 ≤ n) (h : l ≠ []) : (tailN n l).getLastD d = l.getLastD d := by
  have hl : 0 < l.length := List.length_pos.mpr h
  exact getLastD_drop l (l.length - n) d (by omega)

theorem tailN_ne_nil {α : Type _} (n : ℕ) (l : List α) (hn : 1 ≤ n) (h : l ≠ []) :
    tailN n l ≠ [] := by
  have hl : 0 < l.length := List.length_pos.mpr h
  have : 0 < (tailN n l).length := by rw [tailN_length]; omega
  exact List.ne_nil_of_length_pos this

/-! ### The drift flag is identically false -/

theorem drift_head_false (a c : Q) (x y : Bool) :
    (((((⟨0, 1⟩ : Q).ltb (a.sub c) && x) && a.ltb c) ||
      (((a.sub c).ltb ⟨0, 1⟩ && y) && c.ltb a)) = false) := by
  by_cases h : a.n * c.d < c.n * a.d
  · have h1 : (⟨0, 1⟩ : Q).ltb (a.sub c) = false := by
      simp only [Q.ltb, Q.sub, decide_eq_false_iff_not]
      omega
    have h2 : c.ltb a = false := by
      simp only [Q.ltb, decide_eq_false_iff_not]
      omega
    simp [h1, h2]
  · have h1 : a.ltb c = false := by
      simp only [Q.ltb, decide_eq_false_iff_not]
      omega
    have h2 : (a.sub c).ltb ⟨0, 1⟩ = false := by
      simp only [Q.ltb, Q.sub, decide_eq_false_iff_not]
      omega
    simp [h1, h2]

theorem drift_mem_false (line : List Q) :
    ∀ (sig : List Q) (x y : List Bool), ∀ b ∈
      orS (andS (andS (gtZeroS (List.zipWith Q.sub line sig)) x) (ltS line sig))
        (andS (andS (ltZeroS (List.zipWith Q.sub line sig)) y) (ltS sig line)),
      b = false := by
  induction line with
  | nil =>
    intro sig x y b hb
    simp [orS, andS, gtZeroS, ltZeroS, ltS] at hb
  | cons a l ih =>
    intro sig x y b hb
    cases sig with
    | nil => simp [orS, andS, gtZeroS, ltZeroS, ltS] at hb
    | cons c s =>
      cases x with
      | nil => simp [orS, andS, gtZeroS, ltZeroS, ltS] at hb
      | cons x0 xs =>
        cases y with
        | nil => simp [orS, andS, gtZeroS, ltZeroS, ltS] at hb
        | cons y0 ys =>
          simp only [orS, andS, gtZeroS, ltZeroS, ltS, List.zipWith_cons_cons,
            List.map_cons, List.mem_cons] at hb
          rcases hb with hb | hb
          · rw [hb]; exact drift_head_false a c x0 y0
          · exact ih s xs ys b hb

/-- The `macd_drift` column of `calculate_macd` is identically zero: each of
its two defining conjunctions requires both `diff > 0` and
`macd_line < signal_line` (respectively both `diff < 0` and
`macd_line > signal_line`) at the same index, which is impossible since
`diff = macd_line - signal_line`. -/
theorem calculate_macd_drift_zero (close : List Q) (fast slow sigspan : Q) :
    ∀ z ∈ (calculate_macd close fast slow sigspan).drift, z = 0 := by
  intro z hz
  simp only [calculate_macd, List.mem_map] at hz
  obtain ⟨b, hb, rfl⟩ := hz
  rw [drift_mem_false _ _ _ _ b hb]
  simp

theorem foldl_add_zero (l : List Int) (h : ∀ z ∈ l, z = 0) :
    ∀ a : Int, l.foldl (· + ·) a = a := by
  induction l with
  | nil => intro a; rfl
  | cons x t ih =>
    intro a
    rw [List.foldl_cons, h x (by simp), ih (fun z hz => h z (by simp [hz]))]
    ring

/-- Source `_check_drift_accumulation` is identically zero. -/
theorem drift_accumulation_zero (df : Df) (cfg : StrategyConfig) :
    drift_accumulation (add_paferr_features df cfg) = 0 := by
  have hmem : ∀ z ∈ tailN 5 (add_paferr_features df cfg).macd.drift, z = 0 := by
    intro z hz
    exact calculate_macd_drift_zero _ _ _ _ z (List.drop_subset _ _ hz)
  exact foldl_add_zero _ hmem 0

/-! ### Lengths of derived columns -/

theorem ewmGo_length (alpha prev : Q) (l : List Q) :
    (ewmGo alpha prev l).length = l.length := by
  induction l generalizing prev with
  | nil => rfl
  | cons x t ih => simp [ewmGo, ih]

theorem ewmMean_length (alpha : Q) (l : List Q) :
    (ewmMean alpha l).length = l.length := by
  cases l with
  | nil => rfl
  | cons x t => simp [ewmMean, ewmGo_length]

theorem rollingOp_length (f : List Q → Q) (n : ℕ) (l : List Q) :
    (rollingOp f n l).length = l.length := by
  simp [rollingOp]

theorem feat_ma_l_length (df : Df) (cfg : StrategyConfig) :
    (add_paferr_features df cfg).ma.ma_l.length = df.length := by
  simp [add_paferr_features, calculate_ma, rollingOp_length]

theorem feat_bars (df : Df) (cfg : StrategyConfig) :
    (add_paferr_features df cfg).bars = df := rfl

/-! ### The timeliness gate forces `ma45 < close` at the last bar -/

theorem timeliness_last (df : Df) (cfg : StrategyConfig)
    (hk : 1 ≤ cfg.max_klines_for_resonance) (hne : df ≠ [])
    (ht : check_timeliness (add_paferr_features df cfg) cfg = true) :
    oLt (lastO (add_paferr_features df cfg).ma.ma_l)
      (some ((df.map (·.cl)).getLastD ⟨0, 1⟩)) = true := by
  simp only [check_timeliness, decide_eq_true_eq] at ht
  set f := add_paferr_features df cfg with hf
  set pairs := List.zip (someList (f.bars.map (·.cl))) f.ma.ma_l with hpairs
  have hlen : (someList (f.bars.map (·.cl))).length = f.ma.ma_l.length := by
    simp [someList, feat_ma_l_length, hf, feat_bars]
  have hclne : someList (f.bars.map (·.cl)) ≠ [] := by
    simp [someList, hf, feat_bars]
    exact hne
  have hpairs_ne : pairs ≠ [] := by
    have : pairs.length = (f.bars.map (·.cl)).length := by
      simp [hpairs, List.length_zip, someList, hlen.symm]
    have h2 : 0 < pairs.length := by
      rw [this]
      simp [hf, feat_bars]
      exact List.length_pos.mpr hne
    exact List.ne_nil_of_length_pos h2
  set n := cfg.max_klines_for_resonance with hn
  set recent := tailN n pairs with hrecent
  have hcount : n ≤ recent.countP fun p => oLt p.2 p.1 := ht
  have hrlen : recent.length ≤ n := by
    rw [hrecent, tailN_length]
    omega
  have hall : ∀ p ∈ recent, (fun p : Option Q × Option Q => oLt p.2 p.1) p = true := by
    have hle : recent.countP (fun p => oLt p.2 p.1) ≤ recent.length :=
      List.countP_le_length _
    have heq : recent.countP (fun p => oLt p.2 p.1) = recent.length := by omega
    exact List.countP_eq_length.mp heq
  have hrne : recent ≠ [] := tailN_ne_nil n pairs hk hpairs_ne
  have hlast_mem : recent.getLastD (some ⟨0, 1⟩, none) ∈ recent :=
    getLastD_mem _ _ hrne
  have hlast_eq : recent.getLastD (some ⟨0, 1⟩, none) = pairs.getLastD (some ⟨0, 1⟩, none) :=
    tailN_getLastD n pairs _ hk hpairs_ne
  have hzip : pairs.getLastD (some ⟨0, 1⟩, none) =
      ((someList (f.bars.map (·.cl))).getLastD (some ⟨0, 1⟩), f.ma.ma_l.getLastD none) :=
    getLastD_zip _ _ _ _ hlen hclne
  have hcl : (someList (f.bars.map (·.cl))).getLastD (some ⟨0, 1⟩) =
      some ((f.bars.map (·.cl)).getLastD ⟨0, 1⟩) := by
    have := lastO_someList (f.bars.map (·.cl)) ⟨0, 1⟩ (by simp [hf, feat_bars]; exact hne)
    rw [← this]
    exact getLastD_irrel _ _ _ (by simp [someList, hf, feat_bars]; exact hne)
  have := hall _ hlast_mem
  rw [hlast_eq, hzip] at this
  simp only at this
  rw [hcl] at this
  simpa [lastO, hf, feat_bars] using this

/-! ### Step lemmas for the cooldown state machine -/

theorem gs_suppressed (cfg : StrategyConfig) (df : Df) (t : Int)
    (hlt : dfNow df - t < 15 * nsPerMin) :
    generate_signal cfg (some t) df = (.noSignal, some t) := by
  simp only [generate_signal]
  split
  · rfl
  · have hc : cooldownActive (some t) (dfNow df) = true := by
      simp [cooldownActive]
      omega
    rw [if_pos hc]

theorem gs_emit (cfg : StrategyConfig) (s : Option Int) (df : Df) (it : Intent)
    (h : (generate_signal cfg s df).1 = .trade it) :
    (generate_signal cfg s df).2 = some (dfNow df) ∧
      cooldownActive s (dfNow df) = false := by
  revert h
  simp only [generate_signal]
  split
  · intro h; exact absurd h (by simp)
  · split
    · intro h; exact absurd h (by simp)
    · rename_i hcool
      split
      · intro _; exact ⟨rfl, by simpa using hcool⟩
      · split
        · intro _; exact ⟨rfl, by simpa using hcool⟩
        · intro h; exact absurd h (by simp)

theorem gs_step_cases (cfg : StrategyConfig) (s : Option Int) (df : Df) :
    (generate_signal cfg s df).2 = s ∨
      ((generate_signal cfg s df).2 = some (dfNow df) ∧
        cooldownActive s (dfNow df) = false) := by
  simp only [generate_signal]
  split
  · exact Or.inl rfl
  · split
    · exact Or.inl rfl
    · rename_i hcool
      split
      · exact Or.inr ⟨rfl, by simpa using hcool⟩
      · split
        · exact Or.inr ⟨rfl, by simpa using hcool⟩
        · exact Or.inl rfl

theorem cooldown_pos : (0 : Int) < 15 * nsPerMin := by decide

/-- Once the engine's `last_signal_time` is at or after `ti + cooldown`, or
exactly `ti`, every later call whose bar time is within the cooldown window
of `ti` is suppressed. -/
theorem run_suppress (cfg : StrategyConfig) (ti : Int) :
    ∀ (l : List Df) (t : Int), (t = ti ∨ ti + 15 * nsPerMin ≤ t) →
      ∀ j, j < l.length → dfNow (l.getD j []) - ti < 15 * nsPerMin →
      (runSignals cfg (some t) l).getD j .noSignal = .noSignal := by
  intro l
  induction l with
  | nil =>
    intro t _ j hj _
    simp at hj
  | cons d ds ih =>
    intro t hvar j hj hlt
    simp only [runSignals]
    cases j with
    | zero =>
      have hnow : dfNow d - t < 15 * nsPerMin := by
        have hd : dfNow (List.getD (d :: ds) 0 []) = dfNow d := rfl
        rw [hd] at hlt
        have := cooldown_pos
        rcases hvar with h | h <;> omega
      rw [gs_suppressed cfg d t hnow]
      rfl
    | succ j2 =>
      have hj2 : j2 < ds.length := by simpa using hj
      have hlt2 : dfNow (ds.getD j2 []) - ti < 15 * nsPerMin := by
        simpa using hlt
      rcases gs_step_cases cfg (some t) d with hkeep | ⟨hset, hcool⟩
      · rw [List.getD_cons_succ, hkeep]
        exact ih t hvar j2 hj2 hlt2
      · rw [List.getD_cons_succ, hset]
        have hge : t + 15 * nsPerMin ≤ dfNow d := by
          simp [cooldownActive] at hcool
          omega
        have := cooldown_pos
        refine ih (dfNow d) (Or.inr ?_) j2 hj2 hlt2
        rcases hvar with h | h <;> omega

/-- Over any run of `generate_signal` calls against one engine instance, if
call `i` emits a non-hold intent and a later call `j` is within the cooldown
window of call `i`, call `j` is suppressed (returns no-signal). -/
theorem run_emit_suppress (cfg : StrategyConfig) :
    ∀ (l : List Df) (s : Option Int) (i j : ℕ) (it : Intent), i < j → j < l.length →
      (runSignals cfg s l).getD i .noSignal = .trade it →
      dfNow (l.getD j []) - dfNow (l.getD i []) < 15 * nsPerMin →
      (runSignals cfg s l).getD j .noSignal = .noSignal := by
  intro l
  induction l with
  | nil =>
    intro s i j it _ hj _ _
    simp at hj
  | cons d ds ih =>
    intro s i j it hij hj hemit hlt
    cases i with
    | zero =>
      simp only [runSignals, List.getD_cons_zero] at hemit
      obtain ⟨hset, _⟩ := gs_emit cfg s d it hemit
      cases j with
      | zero => omega
      | succ j2 =>
        simp only [runSignals, List.getD_cons_succ] at hlt ⊢
        rw [hset]
        exact run_suppress cfg (dfNow d) ds (dfNow d) (Or.inl rfl) j2
          (by simpa using hj) (by simpa using hlt)
    | succ i2 =>
      cases j with
      | zero => omega
      | succ j2 =>
        simp only [runSignals, List.getD_cons_succ] at hemit hlt ⊢
        exact ih _ i2 j2 it (by omega) (by simpa using hj) hemit hlt

/-! ### Claim theorems -/

/-- C4 (code bug): the `macd_drift` flag computed by `calculate_macd` is
identically zero for every input and parameter set — its two defining
conjunctions are unsatisfiable — even at a bar where the spec's drift
condition holds.  In the concrete frame `c4closes` under MACD(1,9,10), at
the last bar the line/signal distance is negative (the sign relationship a
golden cross would reverse) and widening (`diff[3] < diff[2] < 0`), yet the
flag is 0 there. -/
theorem c4_drift_flag_never_true :
    (∀ (close : List Q) (fast slow sigspan : Q),
      (calculate_macd close fast slow sigspan).drift =
        List.replicate (calculate_macd close fast slow sigspan).drift.length 0) ∧
    ((List.zipWith Q.sub (calculate_macd c4closes ⟨1, 1⟩ ⟨9, 1⟩ ⟨10, 1⟩).line
        (calculate_macd c4closes ⟨1, 1⟩ ⟨9, 1⟩ ⟨10, 1⟩).sig).getD 3 ⟨0, 1⟩).ltb
      ((List.zipWith Q.sub (calculate_macd c4closes ⟨1, 1⟩ ⟨9, 1⟩ ⟨10, 1⟩).line
        (calculate_macd c4closes ⟨1, 1⟩ ⟨9, 1⟩ ⟨10, 1⟩).sig).getD 2 ⟨0, 1⟩) = true ∧
    ((List.zipWith Q.sub (calculate_macd c4closes ⟨1, 1⟩ ⟨9, 1⟩ ⟨10, 1⟩).line
        (calculate_macd c4closes ⟨1, 1⟩ ⟨9, 1⟩ ⟨10, 1⟩).sig).getD 3 ⟨0, 1⟩).ltb
      ⟨0, 1⟩ = true ∧
    (calculate_macd c4closes ⟨1, 1⟩ ⟨9, 1⟩ ⟨10, 1⟩).drift.getD 3 1 = 0 := by
  refine ⟨?_, by decide, by decide, by decide⟩
  intro close fast slow sigspan
  exact List.eq_replicate.mpr ⟨rfl, calculate_macd_drift_zero close fast slow sigspan⟩

/-- C10: for every input frame the drift accumulation over the trailing five
bars is 0 (the drift flag is identically false), hence every intent emitted
by `generate_signal` carries leverage exactly 20, and confidence exactly 0.7
for a buy and exactly 0.65 for a sell. -/
theorem c10_leverage_confidence_constant (df : Df) (cfg : StrategyConfig)
    (s : Option Int) (it : Intent) :
    drift_accumulation (add_paferr_features df cfg) = 0 ∧
      ((generate_signal cfg s df).1 = .trade it →
        it.leverage = 20 ∧
          (it.action = .buy → it.confidence.toRat = 7 / 10) ∧
          (it.action = .sell → it.confidence.toRat = 13 / 20)) := by
  refine ⟨drift_accumulation_zero df cfg, ?_⟩
  simp only [generate_signal]
  split
  · intro h; exact absurd h (by simp)
  · split
    · intro h; exact absurd h (by simp)
    · split
      · intro h
        rw [SigResult.trade.injEq] at h
        subst h
        rw [drift_accumulation_zero df cfg]
        refine ⟨?_, fun _ => ?_, fun h2 => Action.noConfusion h2⟩
        · show min (50 : Int) (max 20 (20 + 0 * 5)) = 20
          decide
        · show Q.toRat ((⟨7, 10⟩ : Q).add ((⟨1, 10⟩ : Q).mul (Q.ofInt 0))) = 7 / 10
          have hc : ((⟨7, 10⟩ : Q).add ((⟨1, 10⟩ : Q).mul (Q.ofInt 0))) = ⟨70, 100⟩ := by
            decide
          rw [hc]
          norm_num [Q.toRat]
      · split
        · intro h
          rw [SigResult.trade.injEq] at h
          subst h
          rw [drift_accumulation_zero df cfg]
          refine ⟨?_, fun h2 => Action.noConfusion h2, fun _ => ?_⟩
          · show min (50 : Int) (max 20 (20 + 0 * 5)) = 20
            decide
          · show Q.toRat ((⟨65, 100⟩ : Q).add ((⟨1, 10⟩ : Q).mul (Q.ofInt 0))) = 13 / 20
            have hc : ((⟨65, 100⟩ : Q).add ((⟨1, 10⟩ : Q).mul (Q.ofInt 0))) = ⟨650, 1000⟩ := by
              decide
            rw [hc]
            norm_num [Q.toRat]
        · intro h; exact absurd h (by simp)

/-- C10 witness: on the concrete frame `dfSell` a sell intent is emitted and
it carries leverage 20 and confidence 0.65. -/
theorem c10_witness :
    (generate_signal witCfg none dfSell).1 = .trade sellIntentW ∧
      sellIntentW.leverage = 20 ∧ sellIntentW.confidence.toRat = 13 / 20 := by
  have hemit : (generate_signal witCfg none dfSell).1 = .trade sellIntentW := by decide
  have h := (c10_leverage_confidence_constant dfSell witCfg none sellIntentW).2 hemit
  exact ⟨hemit, h.1, h.2.2 rfl⟩

/-- C5: for every frame with at least 50 bars, the resonance count is in
`{0,1,2,3,4}` and the bullish classification (count ≥ 3) and the bearish
classification (count = 0 with the 4h trend false) never both hold. -/
theorem c5_resonance_range_exclusive (df : Df) (cfg : StrategyConfig)
    (h : 50 ≤ df.length) :
    resTotal (check_resonance df cfg) ≤ 4 ∧
      ¬(3 ≤ resTotal (check_resonance df cfg) ∧
        resTotal (check_resonance df cfg) = 0 ∧
        (check_resonance df cfg).h4 = false) := by
  rcases check_resonance df cfg with ⟨a, b, c, d⟩
  cases a <;> cases b <;> cases c <;> cases d <;> simp [resTotal]

/-- C5 witness: the hypotheses of `c5_resonance_range_exclusive` hold for the
concrete 50-bar frame `dfSell`. -/
theorem c5_witness :
    50 ≤ dfSell.length ∧
      resTotal (check_resonance dfSell witCfg) ≤ 4 ∧
      ¬(3 ≤ resTotal (check_resonance dfSell witCfg) ∧
        resTotal (check_resonance dfSell witCfg) = 0 ∧
        (check_resonance dfSell witCfg).h4 = false) :=
  ⟨by decide, c5_resonance_range_exclusive dfSell witCfg (by decide)⟩

/-- C2: over any sequence of `generate_signal` calls against one engine
instance (fresh cooldown state), if call `i` returns a non-hold intent and a
later call `j` has a last-bar timestamp less than the 15-minute cooldown
window after call `i`'s (which is implied by the two being less than the
window apart), then call `j` is suppressed and returns no-signal; in
particular at most one of the two calls returns a non-hold intent. -/
theorem c2_cooldown_suppression (cfg : StrategyConfig) (l : List Df) (i j : ℕ)
    (it : Intent) (hij : i < j) (hj : j < l.length)
    (hemit : (runSignals cfg none l).getD i .noSignal = .trade it)
    (hapart : dfNow (l.getD j []) - dfNow (l.getD i []) < 15 * nsPerMin) :
    (runSignals cfg none l).getD j .noSignal = .noSignal :=
  run_emit_suppress cfg l none i j it hij hj hemit hapart

/-- C2 witness: the first call on `dfSell` emits a sell; a second call one
minute later (on `dfSell2`) is suppressed and returns no-signal. -/
theorem c2_witness :
    (runSignals witCfg none [dfSell, dfSell2]).getD 0 .noSignal = .trade sellIntentW ∧
      dfNow ([dfSell, dfSell2].getD 1 []) - dfNow ([dfSell, dfSell2].getD 0 []) <
        15 * nsPerMin ∧
      (runSignals witCfg none [dfSell, dfSell2]).getD 1 .noSignal = .noSignal := by
  have hemit : (runSignals witCfg none [dfSell, dfSell2]).getD 0 .noSignal =
      .trade sellIntentW := by decide
  exact ⟨hemit, by decide,
    c2_cooldown_suppression witCfg [dfSell, dfSell2] 0 1 sellIntentW (by decide)
      (by decide) hemit (by decide)⟩

/-- C6 counterexample: a computed indicator frame (`dfEq` under `cfgEq`) with
9 rows whose last close equals its last long-MA exactly (so `close ≥ ma` in
the claim's sense) and whose last histogram is positive, yet the trend is
classified false — the code compares with strict `>`, not `≥`. -/
theorem c6_counterexample :
    (check_resonance dfEq cfgEq).m15 = false ∧
      2 ≤ dfEq.length ∧
      (lastO (add_paferr_features dfEq cfgEq).ma.ma_l).isSome = true ∧
      Q.toRat ((lastO (add_paferr_features dfEq cfgEq).ma.ma_l).getD ⟨0, 1⟩) =
        Q.toRat (List.getLastD (dfEq.map (fun b => b.cl)) (⟨0, 1⟩ : Q)) ∧
      (⟨0, 1⟩ : Q).ltb ((add_paferr_features dfEq cfgEq).macd.hist.getLastD ⟨0, 1⟩) =
        true := by
  refine ⟨by decide, by decide, by decide, ?_, by decide⟩
  have h1 : (lastO (add_paferr_features dfEq cfgEq).ma.ma_l).getD ⟨0, 1⟩ = ⟨24, 2⟩ := by
    decide
  have h2 : List.getLastD (dfEq.map (fun b => b.cl)) (⟨0, 1⟩ : Q) = ⟨12, 1⟩ := by decide
  rw [h1, h2]
  norm_num [Q.toRat]

/-- C6 (amended): a timeframe's trend is classified true exactly when the
frame has at least 2 rows, its last close is STRICTLY greater than its last
long-MA (a NaN long-MA counting as false), and its last `macd_hist` is
strictly positive; an aggregate with fewer than 50 bars contributes false. -/
theorem c6_trend_strict (df : Df) (cfg : StrategyConfig) :
    ((check_resonance df cfg).m15 = true ↔
      (2 ≤ df.length ∧ ∃ m, lastO (add_paferr_features df cfg).ma.ma_l = some m ∧
        m.ltb ((df.map (·.cl)).getLastD ⟨0, 1⟩) = true ∧
        (⟨0, 1⟩ : Q).ltb ((add_paferr_features df cfg).macd.hist.getLastD ⟨0, 1⟩) =
          true)) ∧
    ((resampleAgg 30 df).length < 50 → (check_resonance df cfg).m30 = false) ∧
    ((resampleAgg 60 df).length < 50 → (check_resonance df cfg).h1 = false) ∧
    ((resampleAgg 240 df).length < 50 → (check_resonance df cfg).h4 = false) := by
  refine ⟨?_, ?_, ?_, ?_⟩
  · show get_trend_status (some (add_paferr_features df cfg)) = true ↔ _
    simp only [get_trend_status, feat_bars]
    split
    · rename_i hlt
      constructor
      · intro h; exact absurd h (by simp)
      · rintro ⟨h2, -⟩; omega
    · rename_i hge
      rw [Bool.and_eq_true]
      constructor
      · rintro ⟨h1, h2⟩
        refine ⟨by omega, ?_⟩
        cases hma : lastO (add_paferr_features df cfg).ma.ma_l with
        | none => rw [hma] at h1; exact absurd h1 (by simp [oLt])
        | some m =>
          rw [hma] at h1
          exact ⟨m, rfl, h1, h2⟩
      · rintro ⟨-, m, hma, hlt2, hh⟩
        rw [hma]
        exact ⟨hlt2, hh⟩
  · intro h
    show get_trend_status (aggFeat 30 df cfg) = false
    rw [aggFeat, if_neg (by omega)]
    rfl
  · intro h
    show get_trend_status (aggFeat 60 df cfg) = false
    rw [aggFeat, if_neg (by omega)]
    rfl
  · intro h
    show get_trend_status (aggFeat 240 df cfg) = false
    rw [aggFeat, if_neg (by omega)]
    rfl

/-- C6 witness: on the concrete frame `dfSell`, whose 30-minute aggregate has
2 bars, the amended characterisation applies: the 30-minute trend contributes
false, and the native trend is false as characterised. -/
theorem c6_witness :
    (resampleAgg 30 dfSell).length < 50 ∧
      (check_resonance dfSell witCfg).m30 = false :=
  ⟨by decide, (c6_trend_strict dfSell witCfg).2.1 (by decide)⟩

/-! ### Unfolding lemmas for the executor -/

theorem exec_none (dbOk : Bool) (st : SimState) (sig : Signal) (price slip : Q)
    (ts : Int) (ha : sig.action ≠ .hold)
    (hp : computePnl sig.action sig.stop_loss sig.take_profit (positionSize st.balance)
      ((positionSize st.balance).mul fee_rate_taker) (execPrice sig price slip) = none) :
    execute_virtual_trade dbOk st sig price slip ts = (.errorRes, st) := by
  simp only [execute_virtual_trade]
  rw [if_neg ha, hp]

theorem exec_some (dbOk : Bool) (st : SimState) (sig : Signal) (price slip : Q)
    (ts : Int) (p : Q) (ha : sig.action ≠ .hold)
    (hp : computePnl sig.action sig.stop_loss sig.take_profit (positionSize st.balance)
      ((positionSize st.balance).mul fee_rate_taker) (execPrice sig price slip) = some p) :
    execute_virtual_trade dbOk st sig price slip ts =
      (if dbOk then
        (.filled (buildTrade sig ts (execPrice sig price slip) p
            ((positionSize st.balance).mul fee_rate_taker)
            (if (st.balance.add p).ltb ⟨10, 1⟩ then (⟨100, 1⟩ : Q) else st.balance.add p)),
         ⟨(if (st.balance.add p).ltb ⟨10, 1⟩ then (⟨100, 1⟩ : Q) else st.balance.add p),
          (if (st.balance.add p).ltb ⟨10, 1⟩ then reset_virtual_account else st).trades ++
            [buildTrade sig ts (execPrice sig price slip) p
              ((positionSize st.balance).mul fee_rate_taker)
              (if (st.balance.add p).ltb ⟨10, 1⟩ then (⟨100, 1⟩ : Q)
                else st.balance.add p)]⟩)
       else
        (.errorRes,
          if (st.balance.add p).ltb ⟨10, 1⟩ then reset_virtual_account else st)) := by
  simp only [execute_virtual_trade]
  rw [if_neg ha, hp]

/-! ### Executor claim theorems -/

/-- C1: on a non-hold fill whose computed `balance + pnl` is below the
bankruptcy floor 10, the call resets the account: the returned and persisted
record carries `balance_after = 100` (never the sub-floor value), the
simulator balance after the call is 100, and the in-memory trade buffer is
left holding only the new record (all prior trades were cleared by the
reset before it was appended). -/
theorem c1_bankruptcy_reset (st : SimState) (sig : Signal) (price slip : Q)
    (ts : Int) (p : Q) (ha : sig.action ≠ .hold)
    (hp : computePnl sig.action sig.stop_loss sig.take_profit (positionSize st.balance)
      ((positionSize st.balance).mul fee_rate_taker) (execPrice sig price slip) = some p)
    (hb : (st.balance.add p).ltb ⟨10, 1⟩ = true) :
    execute_virtual_trade true st sig price slip ts =
      (.filled (buildTrade sig ts (execPrice sig price slip) p
          ((positionSize st.balance).mul fee_rate_taker) ⟨100, 1⟩),
       ⟨⟨100, 1⟩, [buildTrade sig ts (execPrice sig price slip) p
          ((positionSize st.balance).mul fee_rate_taker) ⟨100, 1⟩]⟩) ∧
    Q.toRat (buildTrade sig ts (execPrice sig price slip) p
      ((positionSize st.balance).mul fee_rate_taker) ⟨100, 1⟩).balance_after = 100 := by
  constructor
  · rw [exec_some true st sig price slip ts p ha hp]
    simp [hb, reset_virtual_account]
  · show Q.toRat (pyRound ⟨100, 1⟩ 4) = 100
    have h4 : pyRound (⟨100, 1⟩ : Q) 4 = ⟨1000000, 10000⟩ := by decide
    rw [h4]
    norm_num [Q.toRat]

/-- C1 witness: a sell from balance 11 hitting its stop loses 8.71728, the
post-fill balance 2.28272 is below 10, and the call returns balance 100 with
a single-record buffer whose `balance_after` is 100. -/
theorem c1_witness :
    execute_virtual_trade true ⟨⟨11, 1⟩, []⟩ sellSigW ⟨100, 1⟩ ⟨0, 1⟩ 0 =
      (.filled (buildTrade sellSigW 0 (execPrice sellSigW ⟨100, 1⟩ ⟨0, 1⟩)
          ⟨-871728000, 100000000⟩
          ((positionSize ⟨11, 1⟩).mul fee_rate_taker) ⟨100, 1⟩),
       ⟨⟨100, 1⟩, [buildTrade sellSigW 0 (execPrice sellSigW ⟨100, 1⟩ ⟨0, 1⟩)
          ⟨-871728000, 100000000⟩
          ((positionSize ⟨11, 1⟩).mul fee_rate_taker) ⟨100, 1⟩]⟩) ∧
    Q.toRat (buildTrade sellSigW 0 (execPrice sellSigW ⟨100, 1⟩ ⟨0, 1⟩)
      ⟨-871728000, 100000000⟩
      ((positionSize ⟨11, 1⟩).mul fee_rate_taker) ⟨100, 1⟩).balance_after = 100 :=
  c1_bankruptcy_reset ⟨⟨11, 1⟩, []⟩ sellSigW ⟨100, 1⟩ ⟨0, 1⟩ 0 ⟨-871728000, 100000000⟩
    (by decide) (by decide) (by decide)

/-- C3 counterexample: a stop-hit buy fill from balance 10.33 (size 8.264,
all preconditions of the claim satisfied).  The recorded fee `0.004958`
differs from `size × taker_fee_rate = 0.0049584` (6-decimal rounding); the
recorded `net_pnl` `4.122083` differs from recorded `pnl - fee`
`4.127042 - 0.004958 = 4.122084`; and the pnl on this stop-loss branch is
positive (`+4.1270416`), not a loss. -/
theorem c3_counterexample :
    (execute_virtual_trade true ⟨⟨1033, 100⟩, []⟩ buySigStop ⟨100, 1⟩ ⟨0, 1⟩ 0).1 =
      .filled c3rec ∧
    (⟨0, 1⟩ : Q).ltb (positionSize ⟨1033, 100⟩) = true ∧
    (execPrice buySigStop ⟨100, 1⟩ ⟨0, 1⟩).leb buySigStop.stop_loss = true ∧
    Q.toRat c3rec.fee ≠ Q.toRat ((positionSize ⟨1033, 100⟩).mul fee_rate_taker) ∧
    Q.toRat c3rec.net_pnl ≠ Q.toRat c3rec.pnl - Q.toRat c3rec.fee ∧
    0 < Q.toRat c3rec.pnl := by
  have hfee : c3rec.fee = ⟨4958, 1000000⟩ := by decide
  have hfee2 : (positionSize ⟨1033, 100⟩).mul fee_rate_taker = ⟨49584, 10000000⟩ := by
    decide
  have hnet : c3rec.net_pnl = ⟨4122083, 1000000⟩ := by decide
  have hpnl : c3rec.pnl = ⟨4127042, 1000000⟩ := by decide
  refine ⟨by decide, by decide, by decide, ?_, ?_, ?_⟩
  · rw [hfee, hfee2]; norm_num [Q.toRat]
  · rw [hnet, hpnl, hfee]; norm_num [Q.toRat]
  · rw [hpnl]; norm_num [Q.toRat]

/-- C3 (amended): on every successful non-hold fill with positive size, the
record's `fee` is the 6-decimal rounding of `size × taker_fee_rate`, its
`net_pnl` is the 6-decimal rounding of `pnl - fee` (the exact identities
hold before rounding), its `pnl` is the 6-decimal rounding of the computed
pnl, and the balance is updated by adding the unrounded pnl (not net_pnl),
subject to the bankruptcy reset; on the buy stop branch
(`exec_price ≤ stop_loss`) the computed pnl is
`-size × (exec_price - stop_loss)/exec_price - fee` (non-negative up to fee
under the code's sign convention), and 0 when neither barrier is hit. -/
theorem c3_fee_net_pnl_recording (st : SimState) (sig : Signal) (price slip : Q)
    (ts : Int) (p : Q) (ha : sig.action ≠ .hold)
    (hsz : (⟨0, 1⟩ : Q).ltb (positionSize st.balance) = true)
    (hp : computePnl sig.action sig.stop_loss sig.take_profit (positionSize st.balance)
      ((positionSize st.balance).mul fee_rate_taker) (execPrice sig price slip) = some p) :
    (execute_virtual_trade true st sig price slip ts).1 =
      .filled (buildTrade sig ts (execPrice sig price slip) p
        ((positionSize st.balance).mul fee_rate_taker)
        (if (st.balance.add p).ltb ⟨10, 1⟩ then (⟨100, 1⟩ : Q) else st.balance.add p)) ∧
    (execute_virtual_trade true st sig price slip ts).2.balance =
      (if (st.balance.add p).ltb ⟨10, 1⟩ then (⟨100, 1⟩ : Q) else st.balance.add p) ∧
    (buildTrade sig ts (execPrice sig price slip) p
        ((positionSize st.balance).mul fee_rate_taker)
        (if (st.balance.add p).ltb ⟨10, 1⟩ then (⟨100, 1⟩ : Q)
          else st.balance.add p)).fee =
      pyRound ((positionSize st.balance).mul fee_rate_taker) 6 ∧
    (buildTrade sig ts (execPrice sig price slip) p
        ((positionSize st.balance).mul fee_rate_taker)
        (if (st.balance.add p).ltb ⟨10, 1⟩ then (⟨100, 1⟩ : Q)
          else st.balance.add p)).net_pnl =
      pyRound (p.sub ((positionSize st.balance).mul fee_rate_taker)) 6 ∧
    (buildTrade sig ts (execPrice sig price slip) p
        ((positionSize st.balance).mul fee_rate_taker)
        (if (st.balance.add p).ltb ⟨10, 1⟩ then (⟨100, 1⟩ : Q)
          else st.balance.add p)).pnl = pyRound p 6 ∧
    (sig.action = .buy → (execPrice sig price slip).leb sig.stop_loss = true →
      (execPrice sig price slip).n ≠ 0 →
      p = ((((positionSize st.balance).neg).mul
        ((execPrice sig price slip).sub sig.stop_loss)).div
        (execPrice sig price slip)).sub ((positionSize st.balance).mul fee_rate_taker)) ∧
    (sig.action = .buy → (execPrice sig price slip).leb sig.stop_loss = false →
      sig.take_profit.leb (execPrice sig price slip) = false → p = ⟨0, 1⟩) := by
  refine ⟨?_, ?_, rfl, rfl, rfl, ?_, ?_⟩
  · rw [exec_some true st sig price slip ts p ha hp]
    simp
  · rw [exec_some true st sig price slip ts p ha hp]
    simp
  · intro hb h1 h2
    rw [hb] at hp
    simp only [computePnl, if_pos rfl, h1, if_true, if_neg h2] at hp
    exact (Option.some.injEq _ _ ▸ hp).symm
  · intro hb h1 h2
    rw [hb] at hp
    simp only [computePnl, if_pos rfl, h1, h2, if_false] at hp
    exact (Option.some.injEq _ _ ▸ hp).symm

/-- C3 witness: a no-trigger buy fill from balance 100 (size 50, pnl 0):
the recorded fields satisfy the amended identities. -/
theorem c3_witness :
    (execute_virtual_trade true ⟨⟨100, 1⟩, []⟩ buySigMid ⟨100, 1⟩ ⟨0, 1⟩ 0).1 =
      .filled (buildTrade buySigMid 0 (execPrice buySigMid ⟨100, 1⟩ ⟨0, 1⟩) ⟨0, 1⟩
        ((positionSize ⟨100, 1⟩).mul fee_rate_taker)
        (if ((⟨100, 1⟩ : Q).add ⟨0, 1⟩).ltb ⟨10, 1⟩ then (⟨100, 1⟩ : Q)
          else (⟨100, 1⟩ : Q).add ⟨0, 1⟩)) ∧
    (buildTrade buySigMid 0 (execPrice buySigMid ⟨100, 1⟩ ⟨0, 1⟩) ⟨0, 1⟩
        ((positionSize ⟨100, 1⟩).mul fee_rate_taker)
        (if ((⟨100, 1⟩ : Q).add ⟨0, 1⟩).ltb ⟨10, 1⟩ then (⟨100, 1⟩ : Q)
          else (⟨100, 1⟩ : Q).add ⟨0, 1⟩)).fee =
      pyRound ((positionSize ⟨100, 1⟩).mul fee_rate_taker) 6 := by
  have h := c3_fee_net_pnl_recording ⟨⟨100, 1⟩, []⟩ buySigMid ⟨100, 1⟩ ⟨0, 1⟩ 0 ⟨0, 1⟩
    (by decide) (by decide) (by decide)
  exact ⟨h.1, h.2.2.1⟩

/-- C9 counterexample: a bankrupting sell fill from balance 11 whose
persistence step fails.  The exception is caught and an error result is
returned, but the simulator state is NOT unchanged: the bankruptcy reset
already ran, leaving balance 100 and a cleared buffer. -/
theorem c9_counterexample :
    execute_virtual_trade false ⟨⟨11, 1⟩, []⟩ sellSigW ⟨100, 1⟩ ⟨0, 1⟩ 0 =
      (.errorRes, ⟨⟨100, 1⟩, []⟩) ∧
    Q.toRat (⟨100, 1⟩ : Q) ≠ Q.toRat (⟨11, 1⟩ : Q) := by
  refine ⟨by decide, by norm_num [Q.toRat]⟩

/-- C9 (amended): every modelled exception inside `execute_virtual_trade` (a
`ZeroDivisionError` in the pnl formula, or a raising `db.save_virtual_trade`)
is caught and returned as an error result, never propagated; the balance and
buffer commit is skipped, so the state is left unchanged — except that when
the exception strikes after a bankruptcy reset, the reset state (balance 100,
cleared buffer) remains. -/
theorem c9_exception_state (dbOk : Bool) (st : SimState) (sig : Signal)
    (price slip : Q) (ts : Int) (ha : sig.action ≠ .hold) :
    (computePnl sig.action sig.stop_loss sig.take_profit (positionSize st.balance)
        ((positionSize st.balance).mul fee_rate_taker) (execPrice sig price slip) = none →
      execute_virtual_trade dbOk st sig price slip ts = (.errorRes, st)) ∧
    (∀ p, computePnl sig.action sig.stop_loss sig.take_profit (positionSize st.balance)
        ((positionSize st.balance).mul fee_rate_taker) (execPrice sig price slip) = some p →
      dbOk = false →
      execute_virtual_trade dbOk st sig price slip ts =
        (.errorRes,
          if (st.balance.add p).ltb ⟨10, 1⟩ then reset_virtual_account else st)) := by
  constructor
  · intro hp
    exact exec_none dbOk st sig price slip ts ha hp
  · intro p hp hdb
    subst hdb
    rw [exec_some false st sig price slip ts p ha hp]
    simp

/-- C9 witness: a failing persistence step on a non-bankrupting buy fill from
balance 100 returns an error result and leaves the state unchanged. -/
theorem c9_witness :
    execute_virtual_trade false ⟨⟨100, 1⟩, []⟩ buySigMid ⟨100, 1⟩ ⟨0, 1⟩ 0 =
      (.errorRes,
        if (((⟨100, 1⟩ : Q)).add ⟨0, 1⟩).ltb ⟨10, 1⟩ then reset_virtual_account
        else ⟨⟨100, 1⟩, []⟩) :=
  (c9_exception_state false ⟨⟨100, 1⟩, []⟩ buySigMid ⟨100, 1⟩ ⟨0, 1⟩ 0 (by decide)).2
    ⟨0, 1⟩ (by decide) rfl

/-- C7 counterexample: the sell intent emitted on the concrete frame `dfSell`
has `stop_loss ≈ 15.0952` ABOVE its `take_profit = 14.3`: the claimed
`stop_loss < take_profit` fails for sell intents (a short's stop sits above
the market and its target below). -/
theorem c7_counterexample :
    (generate_signal witCfg none dfSell).1 = .trade sellIntentW ∧
      sellIntentW.action = .sell ∧
      sellIntentW.stop_loss = some ⟨301903, 20000⟩ ∧
      ¬ Q.toRat (⟨301903, 20000⟩ : Q) < Q.toRat sellIntentW.take_profit := by
  refine ⟨by decide, rfl, rfl, ?_⟩
  show ¬ Q.toRat (⟨301903, 20000⟩ : Q) < Q.toRat (⟨28600000, 2000000⟩ : Q)
  norm_num [Q.toRat]

/-- C7 (amended): every emitted BUY intent satisfies
`stop_loss < take_profit`, provided the last bar is well-formed
(`low ≤ close ≤ high`), the last long-MA is defined and positive, and the
timeliness window is at least 1 bar (`stop_loss = ma_long × 0.997 < ma_long
< close ≤ high ≤ take_profit`); for sell intents the inequality does not
hold in general. -/
theorem c7_buy_stop_below_target (df : Df) (cfg : StrategyConfig) (s : Option Int)
    (it : Intent) (m : Q)
    (hk : 1 ≤ cfg.max_klines_for_resonance)
    (hit : (generate_signal cfg s df).1 = .trade it)
    (hbuy : it.action = .buy)
    (hm : lastO (add_paferr_features df cfg).ma.ma_l = some m)
    (hmd : 0 < m.d) (hmpos : 0 < m.toRat)
    (hdh : 0 < (df.getLastD defBar).hi.d) (hdl : 0 < (df.getLastD defBar).lo.d)
    (hdc : 0 < (df.getLastD defBar).cl.d)
    (hwf1 : Q.toRat (df.getLastD defBar).lo ≤ Q.toRat (df.getLastD defBar).cl)
    (hwf2 : Q.toRat (df.getLastD defBar).cl ≤ Q.toRat (df.getLastD defBar).hi) :
    it.stop_loss = some (m.mul ((⟨1, 1⟩ : Q).sub stop_loss_buffer)) ∧
      Q.toRat (m.mul ((⟨1, 1⟩ : Q).sub stop_loss_buffer)) < Q.toRat it.take_profit := by
  revert hit hbuy
  simp only [generate_signal]
  split
  · intro hit; exact absurd hit (by simp)
  · split
    · intro hit; exact absurd hit (by simp)
    · split
      · -- buy branch
        rename_i h50 _ hcond
        intro hit hbuy
        rw [SigResult.trade.injEq] at hit
        subst hit
        have hne : df ≠ [] := List.ne_nil_of_length_pos (by omega)
        have htimely : check_timeliness (add_paferr_features df cfg) cfg = true := by
          rw [Bool.and_eq_true, Bool.and_eq_true] at hcond
          exact hcond.2
        have hlt := timeliness_last df cfg hk hne htimely
        rw [hm] at hlt
        have hcl : (List.map (fun b => b.cl) df).getLastD ⟨0, 1⟩ =
            (df.getLastD defBar).cl := getLastD_map (fun b => b.cl) df defBar
        rw [hcl] at hlt
        have hmc : m.toRat < Q.toRat (df.getLastD defBar).cl :=
          (Q.ltb_iff m _ hmd hdc).mp hlt
        constructor
        · show Option.map _ (lastO (add_paferr_features df cfg).ma.ma_l) = _
          rw [hm]
          rfl
        · show Q.toRat (m.mul ((⟨1, 1⟩ : Q).sub stop_loss_buffer)) <
            Q.toRat ((df.getLastD defBar).hi.add
              ((⟨3, 2⟩ : Q).mul ((df.getLastD defBar).hi.sub (df.getLastD defBar).lo)))
          have hsub : ((⟨1, 1⟩ : Q).sub stop_loss_buffer) = (⟨997, 1000⟩ : Q) := by decide
          rw [hsub, Q.toRat_mul]
          have h997 : Q.toRat (⟨997, 1000⟩ : Q) = 997 / 1000 := by norm_num [Q.toRat]
          rw [h997]
          have hdsub : 0 < ((df.getLastD defBar).hi.sub (df.getLastD defBar).lo).d := by
            show 0 < (df.getLastD defBar).hi.d * (df.getLastD defBar).lo.d
            exact mul_pos hdh hdl
          have hdmul : 0 < ((⟨3, 2⟩ : Q).mul
              ((df.getLastD defBar).hi.sub (df.getLastD defBar).lo)).d := by
            show 0 < 2 * ((df.getLastD defBar).hi.sub (df.getLastD defBar).lo).d
            omega
          rw [Q.toRat_add _ _ hdh hdmul, Q.toRat_mul,
            Q.toRat_sub _ _ hdh hdl]
          have h32 : Q.toRat (⟨3, 2⟩ : Q) = 3 / 2 := by norm_num [Q.toRat]
          rw [h32]
          nlinarith [hmpos, hmc, hwf1, hwf2]
      · split
        · -- sell branch: contradicts hbuy
          intro hit hbuy
          rw [SigResult.trade.injEq] at hit
          subst hit
          exact absurd hbuy (by simp)
        · intro hit; exact absurd hit (by simp)

/-- C7 witness: the buy intent emitted on the concrete frame `dfBuy`
satisfies the amended inequality: its stop loss `15.1 × 0.997` is strictly
below its take profit `16.2`. -/
theorem c7_witness :
    (generate_signal witCfg none dfBuy).1 = .trade buyIntentW ∧
      buyIntentW.stop_loss = some ((⟨3020, 200⟩ : Q).mul ((⟨1, 1⟩ : Q).sub stop_loss_buffer)) ∧
      Q.toRat ((⟨3020, 200⟩ : Q).mul ((⟨1, 1⟩ : Q).sub stop_loss_buffer)) <
        Q.toRat buyIntentW.take_profit := by
  have hemit : (generate_signal witCfg none dfBuy).1 = .trade buyIntentW := by decide
  have hlo : (dfBuy.getLastD defBar).lo = ⟨1520, 100⟩ := by decide
  have hcl2 : (dfBuy.getLastD defBar).cl = ⟨154, 10⟩ := by decide
  have hhi : (dfBuy.getLastD defBar).hi = ⟨1560, 100⟩ := by decide
  have h := c7_buy_stop_below_target dfBuy witCfg none buyIntentW ⟨3020, 200⟩
    (by decide) hemit rfl (by decide) (by decide)
    (by norm_num [Q.toRat]) (by decide) (by decide) (by decide)
    (by rw [hlo, hcl2]; norm_num [Q.toRat])
    (by rw [hcl2, hhi]; norm_num [Q.toRat])
  exact ⟨hemit, h.1, h.2⟩

/-- C8 counterexample: a feasible replay (5 trades) whose net pnls are all
equal (five no-trigger fills from full balance each cost exactly the fee)
makes `np.std(returns) == 0`, so the objective returns exactly the sentinel
`-1.0`; hence `-1` is NOT strictly worse than every feasible score. -/
theorem c8_counterexample :
    5 ≤ fiveEqualPnls.length ∧
      objective_score fiveEqualPnls = ObjRes.negOne ∧
      ¬ scoreVal ObjRes.negOne < scoreVal (objective_score fiveEqualPnls) := by
  have hs : objective_score fiveEqualPnls = ObjRes.negOne := by decide
  exact ⟨by decide, hs, by rw [hs]; exact lt_irrefl _⟩

/-- C8 (amended): the objective returns exactly the sentinel `-1.0` whenever
the replay produces fewer than 5 trades; it also returns `-1.0` for feasible
replays whose returns have zero standard deviation, so `-1` ties some
feasible scores instead of comparing strictly worse than all of them. -/
theorem c8_insufficient_sentinel :
    (∀ pnls : List Q, pnls.length < 5 → objective_score pnls = ObjRes.negOne) ∧
      5 ≤ fiveEqualPnls.length ∧ objective_score fiveEqualPnls = ObjRes.negOne := by
  refine ⟨?_, by decide, by decide⟩
  intro pnls h
  rw [objective_score, if_pos h]

/-- C8 witness: an empty replay has fewer than 5 trades and scores the
sentinel. -/
theorem c8_witness : ([] : List Q).length < 5 ∧ objective_score [] = ObjRes.negOne :=
  ⟨by decide, c8_insufficient_sentinel.1 [] (by decide)⟩

end PAFER
